import Mathlib

/-!
Shallow embedding of the ViajaAI trip-planning application
(`src/types.ts`, `src/App.tsx`, `src/components/ChatPanel.tsx`).

Modelling conventions:
* JavaScript strings are Lean `String`; `a.localeCompare(b)` on plain
  ASCII time strings orders exactly as lexicographic `String` order.
* JavaScript numbers that the claims touch (costs, coordinates) are
  modelled as `Int`.
* A JavaScript `Date` is its time value: a number of milliseconds since
  the epoch (here `Nat`, with the timezone offset fixed at zero, so the
  calendar date of a timestamp `t` is `t / msPerDay`).  A calendar date
  is modelled as its epoch day number; the ISO date string
  `toISOString().split('T')[0]` of a day is represented by that day
  number (ISO `YYYY-MM-DD` strings of distinct days compare exactly as
  their day numbers, so strict growth of the strings is strict growth of
  the numbers).
* A TypeScript value of type `T | undefined` (and a `Partial` field) is
  `Option T`: `none` is `undefined` / an absent key.
* React `setTrips(prev => body)` state updates are modelled as the pure
  function `prev ↦ body` on the trip list; network calls and
  `JSON.stringify` on the chat path are supplied as explicit collaborator
  functions.
-/

namespace ViajaAI

/-- Enum `ActivityType` from `src/types.ts`. -/
inductive ActivityType where
  | SIGHTSEEING
  | FOOD
  | TRANSPORT
  | LODGING
  | OTHER
deriving DecidableEq, Repr

/-- Interface `Activity` from `src/types.ts`. -/
structure Activity where
  id : String
  time : String
  title : String
  location : Option String
  lat : Option Int
  lng : Option Int
  notes : Option String
  cost : Option Int
  type : ActivityType
deriving DecidableEq, Repr

/-- Interface `ItineraryDay` from `src/types.ts`.  The `date` field is the
epoch day number denoted by the ISO date string (see module comment). -/
structure ItineraryDay where
  id : String
  date : Nat
  activities : List Activity
deriving DecidableEq, Repr

/-- Interface `Trip` from `src/types.ts`.  The `startDate` and `endDate`
ISO strings are kept as `String` fields as in the source. -/
structure Trip where
  id : String
  title : String
  destination : String
  startDate : String
  endDate : String
  days : List ItineraryDay
  coverImage : Option String
  lat : Option Int
  lng : Option Int
deriving DecidableEq, Repr

/-- TypeScript `Partial<Activity>`: every field optional; a `some` models
a key present with a defined value, `none` an absent key. -/
structure ActivityPatch where
  id : Option String
  time : Option String
  title : Option String
  location : Option String
  lat : Option Int
  lng : Option Int
  notes : Option String
  cost : Option Int
  type : Option ActivityType
deriving DecidableEq, Repr

/-- A patch with every key absent (an empty object or omitted argument). -/
def ActivityPatch.empty : ActivityPatch :=
  { id := none, time := none, title := none, location := none,
    lat := none, lng := none, notes := none, cost := none, type := none }

/-- Spread of a patch value over a required field: `{...a, ...p}` keeps
the old value exactly when the patch key is absent. -/
def patchField {α : Type} (p : Option α) (old : α) : α :=
  p.getD old

/-- Spread of a patch value over an optional field. -/
def patchOpt {α : Type} (p : Option α) (old : Option α) : Option α :=
  match p with
  | some v => some v
  | none => old

/-- Merge `{ ...a, ...updates }` performed by `handleUpdateActivity`
(`src/App.tsx` line 221). -/
def mergeUpdates (a : Activity) (p : ActivityPatch) : Activity :=
  { id := patchField p.id a.id
    time := patchField p.time a.time
    title := patchField p.title a.title
    location := patchOpt p.location a.location
    lat := patchOpt p.lat a.lat
    lng := patchOpt p.lng a.lng
    notes := patchOpt p.notes a.notes
    cost := patchOpt p.cost a.cost
    type := patchField p.type a.type }

/-- Construction of `newActivity` in `handleAddActivity` (`src/App.tsx`
lines 167-174): defaults id, time `'12:00'`, title `'Nova Atividade'`,
type `OTHER`, cost `0`, spread with `...activityData`.  `freshId` stands
for the generated `Date.now().toString() + ...` identifier. -/
def mkNewActivity (freshId : String) (activityData : Option ActivityPatch) : Activity :=
  let p := activityData.getD ActivityPatch.empty
  { id := patchField p.id freshId
    time := patchField p.time "12:00"
    title := patchField p.title "Nova Atividade"
    location := patchOpt p.location none
    lat := patchOpt p.lat none
    lng := patchOpt p.lng none
    notes := patchOpt p.notes none
    cost := patchOpt p.cost (some 0)
    type := patchField p.type ActivityType.OTHER }

/-- Comparator `(a, b) => a.time.localeCompare(b.time)` of
`src/App.tsx` lines 182 and 223, as the Boolean order it sorts by. -/
def timeLe (a b : Activity) : Bool :=
  decide (a.time ≤ b.time)

/-- JavaScript `Array.prototype.sort` with the time comparator: a stable
sort ordered by the comparator, modelled by `List.mergeSort`. -/
def sortActivities (l : List Activity) : List Activity :=
  l.mergeSort timeLe

/-- Handler `handleAddActivity` of `src/App.tsx` lines 166-195, as the
pure trip-list update it performs (the `editingActivity` UI state is out
of scope).  `selectedTripId` is the React state of the same name
(`string | null`); `dayId` is `string` at the type level but may be
`undefined` at runtime when called from the assistant bridge, hence
`Option String`. -/
def handleAddActivity (selectedTripId : Option String) (trips : List Trip)
    (dayId : Option String) (freshId : String)
    (activityData : Option ActivityPatch) : List Trip :=
  let newActivity := mkNewActivity freshId activityData
  trips.map fun trip =>
    if some trip.id = selectedTripId then
      { trip with
        days := trip.days.map fun day =>
          if some day.id = dayId then
            { day with activities := sortActivities (day.activities ++ [newActivity]) }
          else day }
    else trip

/-- Handler `handleDeleteActivity` of `src/App.tsx` lines 197-211. -/
def handleDeleteActivity (selectedTripId : Option String) (trips : List Trip)
    (dayId : Option String) (activityId : Option String) : List Trip :=
  trips.map fun trip =>
    if some trip.id = selectedTripId then
      { trip with
        days := trip.days.map fun day =>
          if some day.id = dayId then
            { day with activities := day.activities.filter fun a => decide (¬ some a.id = activityId) }
          else day }
    else trip

/-- Handler `handleUpdateActivity` of `src/App.tsx` lines 213-230. -/
def handleUpdateActivity (selectedTripId : Option String) (trips : List Trip)
    (dayId : Option String) (activityId : Option String)
    (updates : ActivityPatch) : List Trip :=
  trips.map fun trip =>
    if some trip.id = selectedTripId then
      { trip with
        days := trip.days.map fun day =>
          if some day.id = dayId then
            let newActivities := day.activities.map fun a =>
              if some a.id = activityId then mergeUpdates a updates else a
            { day with activities := sortActivities newActivities }
          else day }
    else trip

/-- One user- or assistant-initiated itinerary mutation. -/
inductive AppOp where
  | addOp (dayId : Option String) (freshId : String) (activityData : Option ActivityPatch)
  | updateOp (dayId activityId : Option String) (updates : ActivityPatch)
  | removeOp (dayId activityId : Option String)

/-- Dispatch of one mutation to the corresponding handler. -/
def applyOp (sel : Option String) (trips : List Trip) : AppOp → List Trip
  | .addOp d f a => handleAddActivity sel trips d f a
  | .updateOp d aid u => handleUpdateActivity sel trips d aid u
  | .removeOp d aid => handleDeleteActivity sel trips d aid

/-- A sequence of mutations applied in order. -/
def applyOps (sel : Option String) (trips : List Trip) (ops : List AppOp) : List Trip :=
  ops.foldl (applyOp sel) trips

/-! Date-range expansion (`generateDays`, `src/App.tsx` lines 121-139). -/

/-- Milliseconds per calendar day. -/
def msPerDay : Nat := 86400000

/-- The timestamp `new Date(y, m, d, 12, 0, 0).getTime()` of noon of epoch
day `d` (timezone offset zero). -/
def noonOf (d : Nat) : Nat := d * msPerDay + 43200000

/-- Identifier `` `day-${current.getTime()}` `` of `src/App.tsx` line 132. -/
def mkDayId (t : Nat) : String := "day-" ++ Nat.repr t

/-- The `while (current <= endLimit)` loop of `generateDays`
(`src/App.tsx` lines 130-137): pushes a day for the current noon
timestamp, then `current.setDate(current.getDate() + 1)` advances one
day. -/
def generateDaysLoop (current endLimit : Nat) : List ItineraryDay :=
  if _h : current ≤ endLimit then
    { id := mkDayId current, date := current / msPerDay, activities := [] }
      :: generateDaysLoop (current + msPerDay) endLimit
  else []
termination_by endLimit + 1 - current
decreasing_by simp_wf; simp only [msPerDay]; omega

/-- Function `generateDays` of `src/App.tsx` lines 121-139.  Its ISO
string arguments are represented by the epoch day numbers they parse to
(`start` / `endd` are the calendar days of `new Date(start)` /
`new Date(end)`). -/
def generateDays (start endd : Nat) : List ItineraryDay :=
  generateDaysLoop (noonOf start) (noonOf endd)

/-- The day record `generateDays` pushes for epoch day `d`. -/
def mkGenDay (d : Nat) : ItineraryDay :=
  { id := mkDayId (noonOf d), date := d, activities := [] }

/-! Cost aggregation (`calculateTotalCost`, `src/App.tsx` lines 107-112). -/

/-- Function `calculateTotalCost` of `src/App.tsx` lines 107-112, a
function of the derived `selectedTrip` value (possibly `undefined`): the
nested `reduce` with `dayTotal + (act.cost || 0)`.  For an `Int` cost,
`cost || 0` equals `cost.getD 0` (absent and `0` both yield `0`). -/
def calculateTotalCost (selectedTrip : Option Trip) : Int :=
  match selectedTrip with
  | none => 0
  | some t =>
    t.days.foldl (fun total day =>
      total + day.activities.foldl (fun dayTotal act => dayTotal + act.cost.getD 0) 0) 0

/-! Decimal digit lists, needed to reason about the `Nat.repr` embedded in
day identifiers. -/

/-- Structural form of the digit list `Nat.toDigitsCore 10` produces:
most significant digit first. -/
def digChars (n : Nat) : List Char :=
  if _h : n < 10 then [Nat.digitChar n]
  else digChars (n / 10) ++ [Nat.digitChar (n % 10)]
termination_by n
decreasing_by exact Nat.div_lt_self (by omega) (by omega)

/-- Numeric value of a digit character. -/
def charVal (c : Char) : Nat := c.toNat - 48

/-- Value of a most-significant-first digit list. -/
def listVal (l : List Char) : Nat :=
  l.foldl (fun acc c => acc * 10 + charVal c) 0

/-! Sort invariant: within every day, activities sorted by time. -/

/-- A day whose activity list is sorted by time (non-decreasing under
string comparison of the `time` field). -/
def daySorted (d : ItineraryDay) : Prop :=
  List.Pairwise (fun a b : Activity => a.time ≤ b.time) d.activities

/-- A trip all of whose days are sorted. -/
def tripSorted (t : Trip) : Prop :=
  ∀ d ∈ t.days, daySorted d

/-- A trip list all of whose trips are sorted. -/
def tripsSorted (ts : List Trip) : Prop :=
  ∀ t ∈ ts, tripSorted t

/-! Assistant bridge (`executeTools`, `src/components/ChatPanel.tsx`
lines 60-145). -/

/-- The `args` object of a tool invocation: the union of the argument
shapes the five declared tools use.  Each field is `Option`: the model
may omit any key. -/
structure ToolArgs where
  dayId : Option String
  activityId : Option String
  title : Option String
  time : Option String
  type : Option ActivityType
  location : Option String
  notes : Option String
  cost : Option Int
  lat : Option Int
  lng : Option Int
  baseCurrency : Option String
  targetCurrency : Option String

/-- One structured tool invocation `{ id, name, args }`. -/
structure ToolCall where
  id : String
  name : String
  args : ToolArgs

/-- One entry pushed onto `responses`: `{ id, name, response: { result } }`,
with the inner result string inlined. -/
structure ToolResponse where
  id : String
  name : String
  response : String

/-- Parsed body of a successful `open.er-api.com` response: the `rates`
lookup (already rendered to the string interpolated into the reply; a
`none` covers both an absent key and a falsy rate value) and the
`time_last_update_utc` field. -/
structure ErApiData where
  rates : String → Option String
  timeLastUpdateUtc : String

/-- Outcome of `fetch` plus `response.json()` for one base currency:
either the awaited calls throw, or they yield a body; a `none` body
covers any value failing the `data && data.rates` truthiness test. -/
inductive FetchResult where
  | fetchThrow
  | fetchOk (d : Option ErApiData)

/-- External collaborators of the chat panel: the exchange-rate endpoint
(keyed by base currency) and `JSON.stringify` on trips. -/
structure ChatEnv where
  net : String → FetchResult
  stringify : Trip → String

/-- The app state the tool callbacks close over: the trip list and the
selected trip id. -/
structure AppState where
  trips : List Trip
  selectedTripId : Option String

/-- Derived value `trips.find(t => t.id === selectedTripId) || trips[0]`
of `src/App.tsx` line 97. -/
def selectedTrip (st : AppState) : Option Trip :=
  match st.trips.find? fun t => decide (some t.id = st.selectedTripId) with
  | some t => some t
  | none => st.trips.head?

/-- JavaScript truthiness filter `s && { k: s }` on an optional string:
the key is produced only for a present, non-empty string. -/
def truthyStr (o : Option String) : Option String :=
  match o with
  | some s => if s = "" then none else some s
  | none => none

/-- The `Partial<Activity>` literal built by the `add_activity` case
(`src/components/ChatPanel.tsx` lines 93-102). -/
def buildAddPatch (args : ToolArgs) : ActivityPatch :=
  { id := none
    title := args.title
    time := args.time
    type := args.type
    location := args.location
    notes := args.notes
    cost := args.cost
    lat := args.lat
    lng := args.lng }

/-- The updates object built by the `update_activity` case
(`src/components/ChatPanel.tsx` lines 107-115): conditional spreads keyed
on `!== undefined` for cost/lat/lng and on truthiness for
notes/time/title/location. -/
def buildUpdatePatch (args : ToolArgs) : ActivityPatch :=
  { id := none
    cost := args.cost
    notes := truthyStr args.notes
    time := truthyStr args.time
    title := truthyStr args.title
    location := truthyStr args.location
    lat := args.lat
    lng := args.lng
    type := none }

/-- The `get_exchange_rate` case (`src/components/ChatPanel.tsx` lines
72-90): base/target default through `||`, the fetch outcome is inspected,
and every failure degrades to a descriptive string. -/
def runExchangeRate (env : ChatEnv) (args : ToolArgs) : String :=
  let base := match args.baseCurrency with
    | some s => if s = "" then "USD" else s
    | none => "USD"
  let target := match args.targetCurrency with
    | some s => if s = "" then "BRL" else s
    | none => "BRL"
  match env.net base with
  | .fetchThrow => "Falha na conexão com API de câmbio."
  | .fetchOk none => "Erro ao obter taxa de câmbio."
  | .fetchOk (some d) =>
    match d.rates target with
    | some rate =>
      "Taxa de câmbio: 1 " ++ base ++ " = " ++ rate ++ " " ++ target
        ++ ". Data: " ++ d.timeLastUpdateUtc
    | none => "Erro ao obter taxa de câmbio."

/-- Execution of one tool invocation: the `switch (name)` of
`src/components/ChatPanel.tsx` lines 71-130 plus the uniform
`responses.push({ id, name, response })`.  `freshId` is the identifier
`handleAddActivity` would generate for this step. -/
def execToolCall (env : ChatEnv) (freshId : String) (st : AppState)
    (call : ToolCall) : AppState × ToolResponse :=
  let args := call.args
  let pair : AppState × String :=
    if call.name = "get_exchange_rate" then
      (st, runExchangeRate env args)
    else if call.name = "add_activity" then
      ({ st with trips := (handleAddActivity st.selectedTripId st.trips args.dayId freshId
          (some (buildAddPatch args))) },
        "Atividade \x27" ++ args.title.getD "undefined" ++ "\x27 adicionada com sucesso.")
    else if call.name = "update_activity" then
      ({ st with trips := (handleUpdateActivity st.selectedTripId st.trips args.dayId
          args.activityId (buildUpdatePatch args)) },
        "Atividade atualizada.")
    else if call.name = "remove_activity" then
      ({ st with trips := (handleDeleteActivity st.selectedTripId st.trips args.dayId
          args.activityId) },
        "Atividade removida.")
    else if call.name = "get_trip_details" then
      (st, match selectedTrip st with
        | some t => env.stringify t
        | none => "undefined")
    else
      (st, "Ferramenta desconhecida.")
  (pair.1, { id := call.id, name := call.name, response := pair.2 })

/-- The sequential `for (const call of functionCalls)` loop of
`executeTools` (`src/components/ChatPanel.tsx` lines 60-145): one
response per call, in order, threading the app state. -/
def executeTools (env : ChatEnv) : (Nat → String) → AppState → List ToolCall →
    AppState × List ToolResponse
  | _, st, [] => (st, [])
  | freshIds, st, c :: cs =>
    let r := execToolCall env (freshIds 0) st c
    let rest := executeTools env (fun n => freshIds (n + 1)) r.1 cs
    (rest.1, r.2 :: rest.2)

/-- The five tool names the `switch` recognises. -/
def knownToolNames : List String :=
  ["add_activity", "update_activity", "remove_activity", "get_trip_details",
   "get_exchange_rate"]

/-! Local-storage persistence (`src/App.tsx` lines 60-94). -/

/-- Shape of a parsed JSON value, the output type of `JSON.parse`. -/
inductive Json where
  | null
  | bool (b : Bool)
  | num (n : Int)
  | str (s : String)
  | arr (xs : List Json)
  | obj (fields : List (String × Json))

/-- Property lookup `v.k` on a parsed value: defined keys of objects;
anything else is `undefined`. -/
def Json.getField : Json → String → Option Json
  | .obj fs, k => (fs.find? fun p => decide (p.1 = k)).map fun p => p.2
  | _, _ => none

/-- The JavaScript test `typeof v === 'object'` (true for objects, arrays
and null). -/
def Json.isObjectType : Json → Bool
  | .obj _ => true
  | .arr _ => true
  | .null => true
  | _ => false

/-- The JavaScript test `v !== null`. -/
def Json.isNotNull : Json → Bool
  | .null => false
  | _ => true

/-- The test `typeof v === 'string'` on a possibly-undefined value. -/
def Json.isStringVal : Option Json → Bool
  | some (.str _) => true
  | _ => false

/-- The test `Array.isArray(v)` on a possibly-undefined value. -/
def Json.isArrayVal : Option Json → Bool
  | some (.arr _) => true
  | _ => false

/-- Validator `isValidTrip` of `src/App.tsx` lines 14-21. -/
def isValidTrip (j : Json) : Bool :=
  j.isObjectType && j.isNotNull && Json.isStringVal (j.getField "id")
    && Json.isArrayVal (j.getField "days")

/-- A raw string stored under the persistence key, represented by its
`JSON.parse` outcome: `badJson` is a string the parser rejects. -/
inductive StoredValue where
  | badJson
  | json (j : Json)

/-- The startup load effect of `src/App.tsx` lines 60-84: reads the key,
parses it inside try/catch (a parse failure removes the key), keeps only
entries passing `isValidTrip`, and calls `setTrips` only when at least
one valid entry remains.  Returns the loaded trip entries (initial state
`[]` otherwise) and the storage content after the effect. -/
def loadTrips : Option StoredValue → List Json × Option StoredValue
  | none => ([], none)
  | some .badJson => ([], none)
  | some (.json j) =>
    match j with
    | .arr xs =>
      if xs.length > 0 then
        let validTrips := xs.filter isValidTrip
        if validTrips.length > 0 then (validTrips, some (.json j))
        else ([], some (.json j))
      else ([], some (.json j))
    | _ => ([], some (.json j))

/-- An optional JSON object entry: `JSON.stringify` omits keys whose
value is `undefined`. -/
def optEntry (k : String) : Option Json → List (String × Json)
  | some j => [(k, j)]
  | none => []

/-- Serialization of the string enum `ActivityType`. -/
def activityTypeToJson : ActivityType → Json
  | .SIGHTSEEING => .str "SIGHTSEEING"
  | .FOOD => .str "FOOD"
  | .TRANSPORT => .str "TRANSPORT"
  | .LODGING => .str "LODGING"
  | .OTHER => .str "OTHER"

/-- The value `JSON.stringify` produces for one activity. -/
def activityToJson (a : Activity) : Json :=
  .obj ([("id", .str a.id), ("time", .str a.time), ("title", .str a.title)]
    ++ optEntry "location" (a.location.map .str)
    ++ optEntry "lat" (a.lat.map .num)
    ++ optEntry "lng" (a.lng.map .num)
    ++ optEntry "notes" (a.notes.map .str)
    ++ optEntry "cost" (a.cost.map .num)
    ++ [("type", activityTypeToJson a.type)])

/-- The value `JSON.stringify` produces for one day (the date rendered by
its day number, see module comment). -/
def dayToJson (d : ItineraryDay) : Json :=
  .obj [("id", .str d.id), ("date", .num (d.date : Int)),
    ("activities", .arr (d.activities.map activityToJson))]

/-- The value `JSON.stringify` produces for one trip. -/
def tripToJson (t : Trip) : Json :=
  .obj ([("id", .str t.id), ("title", .str t.title),
    ("destination", .str t.destination), ("startDate", .str t.startDate),
    ("endDate", .str t.endDate),
    ("days", .arr (t.days.map dayToJson))]
    ++ optEntry "coverImage" (t.coverImage.map .str)
    ++ optEntry "lat" (t.lat.map .num)
    ++ optEntry "lng" (t.lng.map .num))

/-- The persistence effect of `src/App.tsx` lines 86-94: a non-empty trip
list is serialized under the key, an empty one removes the key. -/
def persistTrips (trips : List Trip) : Option StoredValue :=
  if trips.length > 0 then some (.json (.arr (trips.map tripToJson)))
  else none

/-! Concrete sample data used by witnesses. -/

/-- Sample activity with a cost. -/
def actBreakfast : Activity :=
  { id := "a1", time := "09:00", title := "Breakfast", location := none,
    lat := none, lng := none, notes := some "croissants", cost := some 100,
    type := ActivityType.FOOD }

/-- Sample activity without a cost. -/
def actMuseum : Activity :=
  { id := "a2", time := "10:00", title := "Museum", location := none,
    lat := none, lng := none, notes := none, cost := none,
    type := ActivityType.SIGHTSEEING }

/-- Sample day holding two time-sorted activities. -/
def sampleDay : ItineraryDay :=
  { id := "day-1", date := 0, activities := [actBreakfast, actMuseum] }

/-- Sample trip holding the sample day. -/
def sampleTrip : Trip :=
  { id := "trip-1", title := "Sample", destination := "Lisbon",
    startDate := "2026-01-01", endDate := "2026-01-02", days := [sampleDay],
    coverImage := none, lat := none, lng := none }

/-- Sample `update_activity` arguments: empty-string notes, zero cost. -/
def sampleUpdateArgs : ToolArgs :=
  { dayId := some "day-1", activityId := some "a1", title := none,
    time := none, type := none, location := none, notes := some "",
    cost := some 0, lat := none, lng := none, baseCurrency := none,
    targetCurrency := none }

/-! Theorems. -/

theorem toDigitsCore_eq_digChars (fuel : Nat) :
    ∀ n ds, n < fuel → Nat.toDigitsCore 10 fuel n ds = digChars n ++ ds := by
  induction fuel with
  | zero => intro n ds h; omega
  | succ f ih =>
    intro n ds h
    rw [Nat.toDigitsCore]
    by_cases h10 : n / 10 = 0
    · have hn : n < 10 := by omega
      rw [digChars]
      simp [h10, hn, Nat.mod_eq_of_lt hn]
    · have hn : ¬ n < 10 := by omega
      have hlt : n / 10 < f := by
        have : n / 10 < n := Nat.div_lt_self (by omega) (by omega)
        omega
      rw [digChars]
      simp only [hn, dite_false, h10, if_false]
      rw [ih (n / 10) _ hlt, List.append_assoc]
      rfl

theorem toDigits_eq_digChars (n : Nat) : Nat.toDigits 10 n = digChars n :=
  (toDigitsCore_eq_digChars (n + 1) n [] (by omega)).trans (List.append_nil _)

theorem listVal_append_one (xs : List Char) (c : Char) :
    listVal (xs ++ [c]) = listVal xs * 10 + charVal c := by
  simp [listVal, List.foldl_append]

theorem charVal_digitChar {d : Nat} (h : d < 10) :
    charVal (Nat.digitChar d) = d := by
  interval_cases d <;> rfl

theorem listVal_digChars (n : Nat) : listVal (digChars n) = n := by
  induction n using Nat.strong_induction_on with
  | _ n ih =>
    rw [digChars]
    by_cases h : n < 10
    · simp only [h, dite_true]
      simp [listVal, charVal_digitChar h]
    · simp only [h, dite_false]
      rw [listVal_append_one,
        ih (n / 10) (Nat.div_lt_self (by omega) (by omega)),
        charVal_digitChar (Nat.mod_lt n (by omega))]
      omega

theorem nat_repr_injective : Function.Injective Nat.repr := by
  intro a b h
  have hd : digChars a = digChars b := by
    have := congrArg String.data h
    simpa [Nat.repr, toDigits_eq_digChars, List.asString] using this
  calc a = listVal (digChars a) := (listVal_digChars a).symm
    _ = listVal (digChars b) := by rw [hd]
    _ = b := listVal_digChars b

theorem mkDayId_injective : Function.Injective mkDayId := by
  intro a b h
  apply nat_repr_injective
  have := congrArg String.data h
  simp only [mkDayId, String.data_append] at this
  exact String.ext (List.append_cancel_left this)

theorem noonOf_le_noonOf {s e : Nat} (h : s ≤ e) : noonOf s ≤ noonOf e := by
  simp only [noonOf, msPerDay]
  omega

theorem not_noonOf_le_noonOf {s e : Nat} (h : e < s) : ¬ noonOf s ≤ noonOf e := by
  simp only [noonOf, msPerDay]
  omega

theorem noonOf_div (d : Nat) : noonOf d / msPerDay = d := by
  simp only [noonOf, msPerDay]
  omega

theorem noonOf_add_msPerDay (d : Nat) : noonOf d + msPerDay = noonOf (d + 1) := by
  simp only [noonOf, msPerDay]
  omega

theorem noonOf_injective : Function.Injective noonOf := by
  intro a b h
  simp only [noonOf, msPerDay] at h
  omega

theorem generateDaysLoop_eq (n : Nat) :
    ∀ s e, e + 1 - s = n →
      generateDaysLoop (noonOf s) (noonOf e) = (List.range' s n).map mkGenDay := by
  induction n with
  | zero =>
    intro s e h
    rw [generateDaysLoop]
    simp [not_noonOf_le_noonOf (by omega : e < s)]
  | succ k ih =>
    intro s e h
    have hse : s ≤ e := by omega
    rw [generateDaysLoop]
    simp only [noonOf_le_noonOf hse, dite_true, List.range'_succ, List.map_cons]
    refine congrArg₂ _ ?_ ?_
    · simp [mkGenDay, noonOf_div]
    · rw [noonOf_add_msPerDay, ih (s + 1) e (by omega)]

theorem generateDays_eq (s e : Nat) :
    generateDays s e = (List.range' s (e + 1 - s)).map mkGenDay :=
  generateDaysLoop_eq (e + 1 - s) s e rfl

/-- Claim C2: for start ≤ end, `generateDays` returns exactly
end − start + 1 days, with pairwise distinct identifiers, strictly
increasing dates, and covering each calendar date from start to end
inclusive exactly once (every date in the range occurs with
multiplicity one, every other date with multiplicity zero). -/
theorem generateDays_correct (s e : Nat) (h : s ≤ e) :
    (generateDays s e).length = e - s + 1
    ∧ ((generateDays s e).map fun d => d.id).Nodup
    ∧ List.Pairwise (fun d1 d2 => d1.date < d2.date) (generateDays s e)
    ∧ ∀ d : Nat, ((generateDays s e).map fun x => x.date).count d
        = if s ≤ d ∧ d ≤ e then 1 else 0 := by
  rw [generateDays_eq]
  have hmap : (List.map mkGenDay (List.range' s (e + 1 - s))).map (fun x => x.date)
      = List.range' s (e + 1 - s) := by
    rw [List.map_map]
    have : (fun x : ItineraryDay => x.date) ∘ mkGenDay = id := by
      funext d; rfl
    rw [this, List.map_id]
  refine ⟨?_, ?_, ?_, ?_⟩
  · simp only [List.length_map, List.length_range']
    omega
  · rw [List.map_map]
    refine List.Nodup.map ?_ (List.nodup_range' s (e + 1 - s))
    exact fun a b hab => noonOf_injective (mkDayId_injective hab)
  · rw [List.pairwise_map]
    exact List.pairwise_lt_range' s (e + 1 - s)
  · intro d
    rw [hmap, List.count_eq_of_nodup (List.nodup_range' s (e + 1 - s))]
    by_cases hd : s ≤ d ∧ d ≤ e
    · rw [if_pos (by simpa [List.mem_range'_1] using by omega), if_pos hd]
    · rw [if_neg (by simp only [List.mem_range'_1]; omega), if_neg hd]

/-- Witness for `generateDays_correct` at start = 3, end = 5. -/
theorem generateDays_correct_witness :
    3 ≤ 5 ∧ (generateDays 3 5).length = 5 - 3 + 1
    ∧ ((generateDays 3 5).map fun x => x.date).count 4
        = if 3 ≤ 4 ∧ 4 ≤ 5 then 1 else 0 :=
  ⟨by decide, (generateDays_correct 3 5 (by decide)).1,
    (generateDays_correct 3 5 (by decide)).2.2.2 4⟩

/-- Claim C3: when end precedes start, `generateDays` returns the empty
list (and, being a total function, does not raise). -/
theorem generateDays_empty (s e : Nat) (h : e < s) : generateDays s e = [] := by
  rw [generateDays, generateDaysLoop]
  simp [not_noonOf_le_noonOf h]

/-- Witness for `generateDays_empty` at start = 1, end = 0. -/
theorem generateDays_empty_witness : 0 < 1 ∧ generateDays 1 0 = [] :=
  ⟨by decide, generateDays_empty 1 0 (by decide)⟩

theorem sortActivities_sorted (l : List Activity) :
    List.Pairwise (fun a b : Activity => a.time ≤ b.time) (sortActivities l) := by
  have htrans : ∀ a b c : Activity, timeLe a b = true → timeLe b c = true → timeLe a c = true := by
    intro a b c hab hbc
    simp only [timeLe, decide_eq_true_iff] at *
    exact le_trans hab hbc
  have htotal : ∀ a b : Activity, (timeLe a b || timeLe b a) = true := by
    intro a b
    simp only [timeLe, Bool.or_eq_true, decide_eq_true_iff]
    exact le_total a.time b.time
  exact (List.sorted_mergeSort htrans htotal l).imp (fun h => by
    simpa [timeLe, decide_eq_true_iff] using h)

theorem sortActivities_of_sorted {l : List Activity}
    (h : List.Pairwise (fun a b : Activity => a.time ≤ b.time) l) :
    sortActivities l = l :=
  List.mergeSort_of_sorted (h.imp fun hab => by simpa [timeLe, decide_eq_true_iff] using hab)

theorem map_eq_self {α : Type} {l : List α} {f : α → α} (h : ∀ a ∈ l, f a = a) :
    l.map f = l := by
  induction l with
  | nil => rfl
  | cons a l ih =>
    simp only [List.map_cons, h a (by simp)]
    rw [ih fun x hx => h x (by simp [hx])]

theorem handleAddActivity_sorted (sel : Option String) (trips : List Trip)
    (dayId : Option String) (freshId : String) (activityData : Option ActivityPatch)
    (h : tripsSorted trips) :
    tripsSorted (handleAddActivity sel trips dayId freshId activityData) := by
  intro t ht
  rcases List.mem_map.1 ht with ⟨t0, ht0, rfl⟩
  by_cases hsel : some t0.id = sel
  · simp only [handleAddActivity, if_pos hsel]
    intro d hd
    rcases List.mem_map.1 hd with ⟨d0, hd0, rfl⟩
    by_cases hday : some d0.id = dayId
    · simp only [if_pos hday, daySorted]
      exact sortActivities_sorted _
    · simp only [if_neg hday]
      exact h t0 ht0 d0 hd0
  · simp only [handleAddActivity, if_neg hsel]
    exact h t0 ht0

theorem handleUpdateActivity_sorted (sel : Option String) (trips : List Trip)
    (dayId activityId : Option String) (updates : ActivityPatch)
    (h : tripsSorted trips) :
    tripsSorted (handleUpdateActivity sel trips dayId activityId updates) := by
  intro t ht
  rcases List.mem_map.1 ht with ⟨t0, ht0, rfl⟩
  by_cases hsel : some t0.id = sel
  · simp only [handleUpdateActivity, if_pos hsel]
    intro d hd
    rcases List.mem_map.1 hd with ⟨d0, hd0, rfl⟩
    by_cases hday : some d0.id = dayId
    · simp only [if_pos hday, daySorted]
      exact sortActivities_sorted _
    · simp only [if_neg hday]
      exact h t0 ht0 d0 hd0
  · simp only [handleUpdateActivity, if_neg hsel]
    exact h t0 ht0

theorem handleDeleteActivity_sorted (sel : Option String) (trips : List Trip)
    (dayId activityId : Option String)
    (h : tripsSorted trips) :
    tripsSorted (handleDeleteActivity sel trips dayId activityId) := by
  intro t ht
  rcases List.mem_map.1 ht with ⟨t0, ht0, rfl⟩
  by_cases hsel : some t0.id = sel
  · simp only [handleDeleteActivity, if_pos hsel]
    intro d hd
    rcases List.mem_map.1 hd with ⟨d0, hd0, rfl⟩
    by_cases hday : some d0.id = dayId
    · simp only [if_pos hday, daySorted]
      exact ((h t0 ht0 d0 hd0).sublist (List.filter_sublist _))
    · simp only [if_neg hday]
      exact h t0 ht0 d0 hd0
  · simp only [handleDeleteActivity, if_neg hsel]
    exact h t0 ht0

theorem applyOps_sorted (sel : Option String) (ops : List AppOp) :
    ∀ trips, tripsSorted trips → tripsSorted (applyOps sel trips ops) := by
  induction ops with
  | nil => intro trips h; exact h
  | cons op ops ih =>
    intro trips h
    refine ih (applyOp sel trips op) ?_
    cases op with
    | addOp d f a => exact handleAddActivity_sorted sel trips d f a h
    | updateOp d aid u => exact handleUpdateActivity_sorted sel trips d aid u h
    | removeOp d aid => exact handleDeleteActivity_sorted sel trips d aid h

/-- Claim C1: when every day's activity list is sorted by time, each of
add, update and remove yields trips whose days are all sorted again, for
any dayId, activityId and fields; consequently every sequence of these
operations preserves the sort invariant. -/
theorem sort_invariant_preserved (sel : Option String) (trips : List Trip)
    (dayId activityId : Option String) (freshId : String)
    (activityData : Option ActivityPatch) (updates : ActivityPatch)
    (ops : List AppOp)
    (h : tripsSorted trips) :
    tripsSorted (handleAddActivity sel trips dayId freshId activityData)
    ∧ tripsSorted (handleUpdateActivity sel trips dayId activityId updates)
    ∧ tripsSorted (handleDeleteActivity sel trips dayId activityId)
    ∧ tripsSorted (applyOps sel trips ops) :=
  ⟨handleAddActivity_sorted sel trips dayId freshId activityData h,
   handleUpdateActivity_sorted sel trips dayId activityId updates h,
   handleDeleteActivity_sorted sel trips dayId activityId h,
   applyOps_sorted sel ops trips h⟩

theorem sampleDay_sorted : daySorted sampleDay := by
  simp only [daySorted, sampleDay]
  simp only [List.pairwise_cons, List.mem_singleton, List.not_mem_nil, false_implies,
    implies_true, and_true, List.Pairwise.nil]
  intro b hb
  subst hb
  rw [String.le_iff_toList_le]
  decide

theorem sampleTrip_sorted : tripsSorted [sampleTrip] := by
  intro t ht
  rw [List.mem_singleton] at ht
  subst ht
  intro d hd
  simp only [sampleTrip, List.mem_singleton] at hd
  subst hd
  exact sampleDay_sorted

/-- Witness for `sort_invariant_preserved` on a concrete sorted trip. -/
theorem sort_invariant_preserved_witness :
    tripsSorted [sampleTrip]
    ∧ tripsSorted (handleAddActivity (some "trip-1") [sampleTrip] (some "day-1")
        "fresh-id" none) :=
  ⟨sampleTrip_sorted,
    (sort_invariant_preserved (some "trip-1") [sampleTrip] (some "day-1") (some "a1")
      "fresh-id" none ActivityPatch.empty [] sampleTrip_sorted).1⟩

/-- Claim C6: on a trip list whose days are all sorted,
`handleUpdateActivity` is a no-op whenever no day matches `dayId`, or
every day matching `dayId` contains no activity matching `activityId`. -/
theorem updateActs_noop (activityId : Option String) (updates : ActivityPatch)
    {acts : List Activity}
    (hsorted : List.Pairwise (fun a b : Activity => a.time ≤ b.time) acts)
    (hmiss : ∀ a ∈ acts, ¬ some a.id = activityId) :
    sortActivities (acts.map fun a =>
      if some a.id = activityId then mergeUpdates a updates else a) = acts := by
  have hacts : (acts.map fun a =>
      if some a.id = activityId then mergeUpdates a updates else a) = acts :=
    map_eq_self fun a ha => by simp only [if_neg (hmiss a ha)]
  rw [hacts, sortActivities_of_sorted hsorted]

theorem updateActivity_noop (sel : Option String) (trips : List Trip)
    (dayId activityId : Option String) (updates : ActivityPatch)
    (hs : tripsSorted trips)
    (hmiss : ∀ t ∈ trips, ∀ d ∈ t.days, some d.id = dayId →
      ∀ a ∈ d.activities, ¬ some a.id = activityId) :
    handleUpdateActivity sel trips dayId activityId updates = trips := by
  unfold handleUpdateActivity
  apply map_eq_self
  intro t ht
  obtain ⟨tid, t1, t2, t3, t4, tdays, t5, t6, t7⟩ := t
  by_cases hsel : some tid = sel
  · simp only [if_pos hsel]
    congr 1
    apply map_eq_self
    intro d hd
    obtain ⟨did, ddate, dacts⟩ := d
    by_cases hday : some did = dayId
    · simp only [if_pos hday]
      congr 1
      exact updateActs_noop activityId updates (hs _ ht _ hd) (hmiss _ ht _ hd hday)
    · simp only [if_neg hday]
  · simp only [if_neg hsel]

/-- Witness for `updateActivity_noop` on a concrete sorted trip and an
unmatched day identifier. -/
theorem updateActivity_noop_witness :
    tripsSorted [sampleTrip]
    ∧ (∀ t ∈ [sampleTrip], ∀ d ∈ t.days, some d.id = some "day-unknown" →
        ∀ a ∈ d.activities, ¬ some a.id = some "zzz")
    ∧ handleUpdateActivity (some "trip-1") [sampleTrip] (some "day-unknown") (some "zzz")
        ActivityPatch.empty = [sampleTrip] :=
  ⟨sampleTrip_sorted, by decide,
    updateActivity_noop (some "trip-1") [sampleTrip] (some "day-unknown") (some "zzz")
      ActivityPatch.empty sampleTrip_sorted (by decide)⟩

/-- Claim C5: `handleDeleteActivity` is idempotent: removing the same
(dayId, activityId) pair twice equals removing it once. -/
theorem removeActivity_idempotent (sel : Option String) (trips : List Trip)
    (dayId activityId : Option String) :
    handleDeleteActivity sel (handleDeleteActivity sel trips dayId activityId) dayId activityId
      = handleDeleteActivity sel trips dayId activityId := by
  unfold handleDeleteActivity
  rw [List.map_map]
  apply List.map_congr_left
  intro t _ht
  obtain ⟨tid, t1, t2, t3, t4, tdays, t5, t6, t7⟩ := t
  simp only [Function.comp_apply]
  by_cases hsel : some tid = sel
  · simp only [if_pos hsel]
    congr 1
    rw [List.map_map]
    apply List.map_congr_left
    intro d _hd
    obtain ⟨did, ddate, dacts⟩ := d
    simp only [Function.comp_apply]
    by_cases hday : some did = dayId
    · simp only [if_pos hday]
      congr 1
      rw [List.filter_filter]
      exact List.filter_congr fun a _ha => Bool.and_self _
    · simp only [if_neg hday]
  · simp only [if_neg hsel]

theorem foldl_add_map {α : Type} (l : List α) (f : α → Int) :
    ∀ i : Int, l.foldl (fun acc x => acc + f x) i = i + (l.map f).sum := by
  induction l with
  | nil => intro i; simp
  | cons a l ih =>
    intro i
    simp only [List.foldl_cons, List.map_cons, List.sum_cons]
    rw [ih]
    exact add_assoc i (f a) _

/-- Claim C4: `calculateTotalCost` equals the sum over all activities of
all days of the activity's cost with absent cost counted as zero; in
particular a day holding two activities with cost 100 and absent cost
totals 100. -/
theorem calculateTotalCost_correct (t : Trip) :
    calculateTotalCost (some t)
        = (t.days.map fun d => ((d.activities.map fun a => a.cost.getD 0).sum)).sum
    ∧ calculateTotalCost (some sampleTrip) = 100 := by
  constructor
  · simp only [calculateTotalCost]
    rw [foldl_add_map t.days
      (fun day => day.activities.foldl (fun dayTotal act => dayTotal + act.cost.getD 0) 0),
      zero_add]
    refine congrArg _ (List.map_congr_left ?_)
    intro d _hd
    rw [foldl_add_map d.activities (fun act => act.cost.getD 0), zero_add]
  · decide

theorem executeTools_forall (env : ChatEnv) (ids : Nat → String) (st : AppState)
    (calls : List ToolCall) :
    List.Forall₂ (fun (c : ToolCall) (r : ToolResponse) =>
        r.id = c.id ∧ r.name = c.name
        ∧ (¬ c.name ∈ knownToolNames → r.response = "Ferramenta desconhecida."))
      calls (executeTools env ids st calls).2 := by
  induction calls generalizing ids st with
  | nil => exact List.Forall₂.nil
  | cons c cs ih =>
    simp only [executeTools]
    refine List.Forall₂.cons ⟨rfl, rfl, ?_⟩ (ih _ _)
    intro h
    simp only [knownToolNames, List.mem_cons, List.not_mem_nil, or_false, not_or] at h
    obtain ⟨h1, h2, h3, h4, h5⟩ := h
    simp [execToolCall, h1, h2, h3, h4, h5]

/-- Claim C7: a tool batch yields exactly one response per invocation, in
the order supplied, each response carrying the invocation's id and name;
any invocation whose name is none of the five known tools gets the
generic failure string (the dispatch being a total function, nothing is
raised). -/
theorem executeTools_batch (env : ChatEnv) (ids : Nat → String) (st : AppState)
    (calls : List ToolCall) :
    (executeTools env ids st calls).2.length = calls.length
    ∧ List.Forall₂ (fun (c : ToolCall) (r : ToolResponse) =>
        r.id = c.id ∧ r.name = c.name
        ∧ (¬ c.name ∈ knownToolNames → r.response = "Ferramenta desconhecida."))
      calls (executeTools env ids st calls).2 :=
  ⟨(executeTools_forall env ids st calls).length_eq.symm,
    executeTools_forall env ids st calls⟩

/-- Claim C10: the `update_activity` dispatch forwards notes, time, title
and location only when truthy (an empty string leaves the stored field
unchanged), forwards cost, lat and lng whenever defined (including 0),
and hands `handleUpdateActivity` exactly the patch so built. -/
theorem updateDispatch_truthiness (args : ToolArgs) (a : Activity) :
    (args.notes = some "" → (mergeUpdates a (buildUpdatePatch args)).notes = a.notes)
    ∧ (args.time = some "" → (mergeUpdates a (buildUpdatePatch args)).time = a.time)
    ∧ (args.title = some "" → (mergeUpdates a (buildUpdatePatch args)).title = a.title)
    ∧ (args.location = some "" → (mergeUpdates a (buildUpdatePatch args)).location = a.location)
    ∧ (∀ c : Int, args.cost = some c → (mergeUpdates a (buildUpdatePatch args)).cost = some c)
    ∧ (∀ v : Int, args.lat = some v → (mergeUpdates a (buildUpdatePatch args)).lat = some v)
    ∧ (∀ v : Int, args.lng = some v → (mergeUpdates a (buildUpdatePatch args)).lng = some v)
    ∧ (∀ (env : ChatEnv) (fid : String) (st : AppState) (call : ToolCall),
        call.name = "update_activity" →
          (execToolCall env fid st call).1.trips
            = handleUpdateActivity st.selectedTripId st.trips call.args.dayId
                call.args.activityId (buildUpdatePatch call.args)) := by
  refine ⟨?_, ?_, ?_, ?_, ?_, ?_, ?_, ?_⟩
  · intro h; simp [mergeUpdates, buildUpdatePatch, truthyStr, patchOpt, h]
  · intro h; simp [mergeUpdates, buildUpdatePatch, truthyStr, patchField, h]
  · intro h; simp [mergeUpdates, buildUpdatePatch, truthyStr, patchField, h]
  · intro h; simp [mergeUpdates, buildUpdatePatch, truthyStr, patchOpt, h]
  · intro cv h; simp [mergeUpdates, buildUpdatePatch, patchOpt, h]
  · intro v h; simp [mergeUpdates, buildUpdatePatch, patchOpt, h]
  · intro v h; simp [mergeUpdates, buildUpdatePatch, patchOpt, h]
  · intro env fid st call h
    simp [execToolCall, h]

/-- Witness for `updateDispatch_truthiness` at the sample arguments
(empty-string notes, zero cost) on a concrete activity. -/
theorem updateDispatch_truthiness_witness :
    (mergeUpdates actBreakfast (buildUpdatePatch sampleUpdateArgs)).notes = actBreakfast.notes
    ∧ (mergeUpdates actBreakfast (buildUpdatePatch sampleUpdateArgs)).cost = some 0 :=
  ⟨(updateDispatch_truthiness sampleUpdateArgs actBreakfast).1 rfl,
    (updateDispatch_truthiness sampleUpdateArgs actBreakfast).2.2.2.2.1 0 rfl⟩

/-- Claim C8: the startup load path is a total function; a stored value
the parser rejects is removed from storage, and from a parsed array
exactly the entries passing `isValidTrip` are loaded, every malformed
entry being discarded. -/
theorem load_path_robust :
    loadTrips (some StoredValue.badJson) = ([], none)
    ∧ (∀ xs : List Json,
        (loadTrips (some (StoredValue.json (Json.arr xs)))).1 = xs.filter isValidTrip)
    ∧ (∀ xs : List Json,
        (loadTrips (some (StoredValue.json (Json.arr xs)))).2
          = some (StoredValue.json (Json.arr xs))) := by
  refine ⟨rfl, ?_, ?_⟩
  · intro xs
    simp only [loadTrips]
    by_cases hlen : xs.length > 0
    · rw [if_pos hlen]
      by_cases hval : (xs.filter isValidTrip).length > 0
      · rw [if_pos hval]
      · rw [if_neg hval]
        have : xs.filter isValidTrip = [] := by
          cases hfil : xs.filter isValidTrip with
          | nil => rfl
          | cons y ys => rw [hfil] at hval; simp at hval
        rw [this]
    · rw [if_neg hlen]
      have : xs = [] := by
        cases xs with
        | nil => rfl
        | cons y ys => simp at hlen
      subst this
      rfl
  · intro xs
    simp only [loadTrips]
    by_cases hlen : xs.length > 0
    · rw [if_pos hlen]
      by_cases hval : (xs.filter isValidTrip).length > 0
      · rw [if_pos hval]
      · rw [if_neg hval]
    · rw [if_neg hlen]

/-- Claim C9: persisting an empty trip list removes the stored key (it
does not write an empty array), and a startup load from the cleared
storage yields zero trips. -/
theorem persist_empty_clears (trips : List Trip) (h : trips = []) :
    persistTrips trips = none
    ∧ (loadTrips (persistTrips trips)).1 = []
    ∧ loadTrips (persistTrips trips) = ([], none) := by
  subst h
  exact ⟨rfl, rfl, rfl⟩

/-- Witness for `persist_empty_clears` at the empty list. -/
theorem persist_empty_clears_witness :
    persistTrips [] = none ∧ (loadTrips (persistTrips [])).1 = [] :=
  ⟨(persist_empty_clears [] rfl).1, (persist_empty_clears [] rfl).2.1⟩

end ViajaAI
